import Mathlib

set_option linter.unusedVariables false

/-!
Verification of the liverty withdrawal-queue and chain-backend core.

The definitions below are a shallow embedding of the TypeScript source:
`src/backend/utils/eco/withdrawalQueue.ts` (class WithdrawalQueue) and
`src/backend/api/exchange/order/utils.ts` (classes SolanaService and
MoneroService).  Database rows are association lists of transaction
records; every awaited external call that the control flow observes is
represented by an explicit effect in a trace, and the nondeterministic
outcomes of chain RPC calls are inputs (environment records).
-/

namespace Liverty

/-- Transaction lifecycle status (the `status` column written by the code). -/
inductive TxStatus
  | PENDING
  | PROCESSING
  | COMPLETED
  | FAILED
deriving DecidableEq, Repr

/-- The joined wallet row (`include model wallet where type ECO`); only the
currency is read by the queue. -/
structure WalletRow where
  currency : String
deriving DecidableEq, Repr

/-- Parsed `transaction.metadata` (`metadata.chain`, `metadata.toAddress`). -/
structure TxMeta where
  chain : String
  toAddress : String
deriving DecidableEq, Repr

/-- A row of the `transaction` table, with the fields the embedded code reads
or writes.  `wallet` is the ECO-wallet join result (`none` models a missing or
non-ECO wallet). -/
structure TxRecord where
  id : String
  walletId : String
  userId : String
  amount : Rat
  fee : Option Rat
  status : TxStatus
  referenceId : Option String
  description : Option String
  metadata : Option TxMeta
  wallet : Option WalletRow
deriving DecidableEq, Repr

/-- The durable transaction store. -/
abbrev Db := List TxRecord

/-- `models.transaction.findOne(\x7bwhere: \x7bid\x7d\x7d)`: first row with this id. -/
def findTx (db : Db) (id : String) : Option TxRecord :=
  db.find? (fun t => t.id == id)

/-- Status of the first row with this id. -/
def statusOf (db : Db) (id : String) : Option TxStatus :=
  (findTx db id).map (fun t => t.status)

/-- Description of the first row with this id. -/
def descriptionOf (db : Db) (id : String) : Option String :=
  (findTx db id).bind (fun t => t.description)

/-- ReferenceId of the first row with this id. -/
def referenceIdOf (db : Db) (id : String) : Option String :=
  (findTx db id).bind (fun t => t.referenceId)

/-- `UPDATE ... WHERE id = id`: apply the row update `f` to every row with
this id. -/
def mapTx (db : Db) (id : String) (f : TxRecord → TxRecord) : Db :=
  db.map (fun t => if t.id == id then f t else t)

/-- `models.transaction.update(\x7bstatus: PROCESSING\x7d, \x7bwhere: \x7bid, status: PENDING\x7d\x7d)`:
the conditional claim in `WithdrawalQueue.processNext`, returning the updated
rows and the affected row count. -/
def claimPending (db : Db) (id : String) : Db × Nat :=
  (mapTx db id (fun t => if t.status == TxStatus.PENDING then
      { t with status := TxStatus.PROCESSING } else t),
   db.countP (fun t => t.id == id && t.status == TxStatus.PENDING))

/-- The queue error handler write: status FAILED plus a description built from
the caught error message. -/
def failTxQueue (db : Db) (id msg : String) : Db :=
  mapTx db id (fun t =>
    { t with status := TxStatus.FAILED,
             description := some ("Transaction failed: " ++ msg) })

/-- The per-chain handler failure write (`Withdrawal failed: ...`): status and
description only. -/
def failTxWithdrawal (db : Db) (id msg : String) : Db :=
  mapTx db id (fun t =>
    { t with status := TxStatus.FAILED,
             description := some ("Withdrawal failed: " ++ msg) })

/-- The per-chain handler success write: status COMPLETED together with the
chain reference id. -/
def completeTx (db : Db) (id ref : String) : Db :=
  mapTx db id (fun t =>
    { t with status := TxStatus.COMPLETED, referenceId := some ref })

/-- Observable side effects of a processing run, in program order. -/
inductive Effect
  | statusWrite (id : String) (st : TxStatus)
  | solSendRaw (sig : String) (lamports : Int)
  | solGetTx (sig : String)
  | xmrOpenWallet (name : String)
  | xmrTransferRpc (amountAtomic : Int) (toAddress : String)
  | xmrCloseWallet
  | chainTransfer (chain : String) (id : String)
  | refundCall (id : String) (amount : Rat)
  | emailConfirmation (id : String)
  | emailFailed (id : String)
  | notifyFailed (userId : String) (amount : Rat) (currency : String)
  | adminProfit (amount : Rat) (currency : String) (chain : String) (transactionId : String)
  | storeDeposit (chain : String) (hash : String) (amount : Rat) (fee : Rat)
deriving DecidableEq, Repr

/-- JavaScript `Math.round`: floor of x + 1/2. -/
def jsRound (q : Rat) : Int := Int.floor (q + 1/2)

/-- `Math.round(amount * 1e12)`: whole XMR to atomic units (10^12 per XMR). -/
def xmrToAtomic (q : Rat) : Int := jsRound (q * (10 ^ 12 : Rat))

/-- `Math.round(amount * 1e9)`: whole SOL to lamports. -/
def solToLamports (q : Rat) : Int := jsRound (q * (10 ^ 9 : Rat))

/-- The numeric value of `x.toFixed(8)` for nonnegative x: x rounded to the
nearest multiple of 10^-8. -/
def toFixed8 (q : Rat) : Rat := (jsRound (q * (10 ^ 8 : Rat)) : Rat) / (10 ^ 8 : Rat)

/-- Final on-chain state seen by `getTransaction` after the confirmation
attempt in `SolanaService.transferSol`. -/
inductive SolFinal
  | confirmedOk
  | confirmedErr (e : String)
  | missing
deriving DecidableEq, Repr

/-- Chain-side outcomes of one Solana transfer attempt: whether the custodial
key row exists, the signature returned by `sendRawTransaction`, whether the
confirmation wait succeeded, and the re-queried final state. -/
structure SolEnv where
  keyFound : Bool
  sendSig : String
  confirmOk : Bool
  final : SolFinal
deriving DecidableEq, Repr

/-- SolanaService instance state: the startup chain-status probe result. -/
structure SolState where
  chainActive : Bool
deriving DecidableEq, Repr

/-- MoneroService instance state: the startup `get_info` synchronization
probe result. -/
structure XmrState where
  chainActive : Bool
deriving DecidableEq, Repr

/-- Wallet-RPC outcomes of one Monero withdrawal attempt: `openError` is the
error of `open_wallet` when it fails, `txHash` the `tx_hash` of the `transfer`
RPC result when present. -/
structure XmrEnv where
  openError : Option String
  txHash : Option String
deriving DecidableEq, Repr

namespace SolanaService

/-- `SolanaService.ensureChainActive`: throws when the startup probe failed. -/
def ensureChainActive (st : SolState) : Except String Unit :=
  if st.chainActive then Except.ok ()
  else Except.error "Chain SOL is not active in ecosystemBlockchain."

/-- `SolanaService.transferSol`: sign and send a raw transfer, attempt
confirmation (its failure is only logged), then re-query the transaction and
resolve success or failure from the final on-chain state. -/
def transferSol (amountLamports : Int) (env : SolEnv) : List Effect × Except String String :=
  match env.keyFound with
  | false =>
    ([], Except.error "Failed to transfer SOL: Private key not found for the wallet")
  | true =>
    let confirmOutcome : Except String Unit :=
      if env.confirmOk then Except.ok () else Except.error "confirmation failed"
    let effs := [Effect.solSendRaw env.sendSig amountLamports, Effect.solGetTx env.sendSig]
    match confirmOutcome, env.final with
    | _, SolFinal.confirmedOk => (effs, Except.ok env.sendSig)
    | _, SolFinal.confirmedErr e =>
        (effs, Except.error ("Failed to transfer SOL: Transaction failed with error: " ++ e))
    | _, SolFinal.missing =>
        (effs, Except.error "Failed to transfer SOL: Transaction not found or not confirmed")

/-- `SolanaService.handleSolanaWithdrawal`: run the transfer; on a signature,
write COMPLETED with the signature as referenceId; on any error, write FAILED
with a description and rethrow.  Note: the source does not consult
`chainActive` here. -/
def handleSolanaWithdrawal (st : SolState) (db : Db) (transactionId walletId : String)
    (amount : Rat) (toAddress : String) (env : SolEnv) :
    Db × List Effect × Except String Unit :=
  match transferSol (solToLamports amount) env with
  | (effs, Except.ok sig) =>
      if sig == "" then
        let msg := "Failed to receive transaction signature"
        (failTxWithdrawal db transactionId msg,
         effs ++ [Effect.statusWrite transactionId TxStatus.FAILED],
         Except.error msg)
      else
        (completeTx db transactionId sig,
         effs ++ [Effect.statusWrite transactionId TxStatus.COMPLETED],
         Except.ok ())
  | (effs, Except.error msg) =>
      (failTxWithdrawal db transactionId msg,
       effs ++ [Effect.statusWrite transactionId TxStatus.FAILED],
       Except.error msg)

end SolanaService

namespace MoneroService

/-- `MoneroService.ensureChainActive`: throws when the daemon was not
synchronized at startup. -/
def ensureChainActive (st : XmrState) : Except String Unit :=
  if st.chainActive then Except.ok ()
  else Except.error "Chain Monero is not active."

/-- `MoneroService.handleMoneroWithdrawal`: open the wallet, run the `transfer`
RPC (amount converted with `Math.round(amount * 1e12)`), write COMPLETED with
the tx hash or FAILED with a description, and always close the wallet.  Note:
the source does not consult `chainActive` here. -/
def handleMoneroWithdrawal (st : XmrState) (db : Db) (transactionId walletId : String)
    (amount : Rat) (toAddress : String) (env : XmrEnv) :
    Db × List Effect × Except String Unit :=
  match env.openError with
  | some e =>
      let msg := "Failed to open wallet: " ++ e
      (failTxWithdrawal db transactionId msg,
       [Effect.xmrOpenWallet walletId,
        Effect.statusWrite transactionId TxStatus.FAILED,
        Effect.xmrCloseWallet],
       Except.error msg)
  | none =>
      match env.txHash with
      | none =>
          let msg := "Failed to execute Monero transaction."
          (failTxWithdrawal db transactionId msg,
           [Effect.xmrOpenWallet walletId,
            Effect.xmrTransferRpc (xmrToAtomic amount) toAddress,
            Effect.statusWrite transactionId TxStatus.FAILED,
            Effect.xmrCloseWallet],
           Except.error msg)
      | some h =>
          (completeTx db transactionId h,
           [Effect.xmrOpenWallet walletId,
            Effect.xmrTransferRpc (xmrToAtomic amount) toAddress,
            Effect.statusWrite transactionId TxStatus.COMPLETED,
            Effect.xmrCloseWallet],
           Except.ok ())

/-- `MoneroService.transferXMR`: the queue-serialized send.  It calls
`ensureChainActive` before any wallet RPC, then opens the wallet, runs the
`transfer` RPC and closes the wallet in the cleanup block. -/
def transferXMR (st : XmrState) (walletName destinationAddress : String) (amountXMR : Rat)
    (env : XmrEnv) : List Effect × Except String String :=
  match ensureChainActive st with
  | Except.error e => ([], Except.error e)
  | Except.ok _ =>
      match env.openError with
      | some _ =>
          ([Effect.xmrOpenWallet walletName, Effect.xmrCloseWallet],
           Except.error ("Failed to open wallet: " ++ walletName))
      | none =>
          match env.txHash with
          | some h =>
              ([Effect.xmrOpenWallet walletName,
                Effect.xmrTransferRpc (xmrToAtomic amountXMR) destinationAddress,
                Effect.xmrCloseWallet],
               Except.ok h)
          | none =>
              ([Effect.xmrOpenWallet walletName,
                Effect.xmrTransferRpc (xmrToAtomic amountXMR) destinationAddress,
                Effect.xmrCloseWallet],
               Except.error "Failed to send transaction")

/-- The `get_transfer_by_txid` payload: amount and fee in atomic units. -/
structure XmrTransferInfo where
  amount : Int
  fee : Int
deriving DecidableEq, Repr

/-- Chain-side outcome of one deposit-materialization attempt: the transfer
looked up by txid, if found on chain. -/
structure XmrDepositEnv where
  transfer : Option XmrTransferInfo
deriving DecidableEq, Repr

/-- The in-memory `processedTransactions` de-duplication cache. -/
structure XmrMonitorState where
  processedTransactions : List String
deriving DecidableEq, Repr

/-- Modelled from the spec: `storeAndBroadcastTransaction` (imported from
`@b/utils/eco/redis/deposit`, a file not under src/) durably creates one
COMPLETED deposit TransactionRecord whose referenceId is the chain-native
transaction id, and broadcasts it. -/
def storeAndBroadcastTransaction (db : Db) (walletId hash : String) (amount fee : Rat) :
    Db × List Effect :=
  ({ id := "deposit-" ++ hash, walletId := walletId, userId := "",
     amount := amount, fee := some fee, status := TxStatus.COMPLETED,
     referenceId := some hash, description := none, metadata := none,
     wallet := none } :: db,
   [Effect.storeDeposit "XMR" hash amount fee])

/-- `MoneroService.processMoneroTransaction`: skip when the hash is in the
in-memory set; otherwise skip (and cache) when a COMPLETED row with this hash
as referenceId exists in the store; otherwise look the transfer up on chain
and, when present with nonzero amount and fee, store and broadcast the deposit
and add the hash to the in-memory set.  Returns whether a deposit was
materialized. -/
def processMoneroTransaction (mon : XmrMonitorState) (db : Db)
    (transactionHash walletId : String) (env : XmrDepositEnv) :
    XmrMonitorState × Db × List Effect × Bool :=
  if transactionHash ∈ mon.processedTransactions then
    (mon, db, [], false)
  else if db.any (fun t =>
      t.referenceId == some transactionHash && t.status == TxStatus.COMPLETED) then
    ({ processedTransactions := transactionHash :: mon.processedTransactions }, db, [], false)
  else
    match env.transfer with
    | none => (mon, db, [], false)
    | some info =>
        if info.amount == 0 || info.fee == 0 then (mon, db, [], false)
        else
          let amount := toFixed8 ((info.amount : Rat) / (10 ^ 12 : Rat))
          let fee := toFixed8 ((info.fee : Rat) / (10 ^ 12 : Rat))
          let sb := storeAndBroadcastTransaction db walletId transactionHash amount fee
          ({ processedTransactions := transactionHash :: mon.processedTransactions },
           sb.1, sb.2, true)

/-- Repeated poll-cycle feeds of the same chain-native transaction hash to the
deposit monitor, threading the cache and the store. -/
def runMoneroDeposits (mon : XmrMonitorState) (db : Db) (transactionHash walletId : String) :
    List XmrDepositEnv → XmrMonitorState × Db × List Effect
  | [] => (mon, db, [])
  | e :: es =>
      let r := processMoneroTransaction mon db transactionHash walletId e
      let rest := runMoneroDeposits r.1 r.2.1 transactionHash walletId es
      (rest.1, rest.2.1, r.2.2.1 ++ rest.2.2)

end MoneroService

/-- WithdrawalQueue instance state: the pending list, the single-flight flag
and the in-flight set. -/
structure QueueState where
  queue : List String
  isProcessing : Bool
  processingTransactions : List String
deriving DecidableEq, Repr

/-- Collaborator outcomes for one processing run: the chain environments, the
spec-modelled generic backend result, whether the user and wallet lookups of
the confirmation email succeed, whether the post-success bookkeeping section
throws (`postError`), and whether the refund collaborator succeeds. -/
structure QEnv where
  solEnv : SolEnv
  xmrEnv : XmrEnv
  genericResult : Except String String
  userFound : Bool
  walletFound : Bool
  postError : Option String
  refundOk : Bool
deriving Repr

namespace WithdrawalQueue

/-- `WithdrawalQueue.addTransaction`: no-op when the id is in the in-flight
set or already queued; otherwise append and trigger processing (the returned
Bool is whether `processNext` was invoked). -/
def addTransaction (s : QueueState) (transactionId : String) : QueueState × Bool :=
  if transactionId ∈ s.processingTransactions then (s, false)
  else if transactionId ∈ s.queue then (s, false)
  else ({ s with queue := s.queue ++ [transactionId] }, true)

/-- Modelled from the spec: `handleUTXOWithdrawal`, `handleTronWithdrawal` and
`handleEvmWithdrawal` are imported from files not under src/.  Per the spec
(section 4.2) such a backend transfer returns a referenceId on success and
fails with a backend error otherwise; on success the terminal COMPLETED state
is recorded with the referenceId. -/
def handleGenericWithdrawal (db : Db) (transactionId chain : String)
    (r : Except String String) : Db × List Effect × Except String Unit :=
  match r with
  | Except.ok ref =>
      (completeTx db transactionId ref,
       [Effect.chainTransfer chain transactionId,
        Effect.statusWrite transactionId TxStatus.COMPLETED],
       Except.ok ())
  | Except.error msg =>
      (db, [Effect.chainTransfer chain transactionId], Except.error msg)

/-- The chain-family dispatch of `WithdrawalQueue.processNext`. -/
def dispatchChain (sol : SolState) (xmr : XmrState) (db : Db) (tx : TxRecord)
    (m : TxMeta) (env : QEnv) : Db × List Effect × Except String Unit :=
  if m.chain == "BTC" || m.chain == "LTC" || m.chain == "DOGE" || m.chain == "DASH" then
    handleGenericWithdrawal db tx.id m.chain env.genericResult
  else if m.chain == "SOL" then
    SolanaService.handleSolanaWithdrawal sol db tx.id tx.walletId tx.amount m.toAddress env.solEnv
  else if m.chain == "TRON" then
    handleGenericWithdrawal db tx.id m.chain env.genericResult
  else if m.chain == "XMR" then
    MoneroService.handleMoneroWithdrawal xmr db tx.id tx.walletId tx.amount m.toAddress env.xmrEnv
  else
    handleGenericWithdrawal db tx.id m.chain env.genericResult

/-- The `finally` block of `processNext`: remove the id from the in-flight set
and release the single-flight flag. -/
def finishRun (s1 : QueueState) (transactionId : String) (db : Db) (effs : List Effect) :
    QueueState × Db × List Effect :=
  ({ s1 with isProcessing := false,
             processingTransactions := s1.processingTransactions.erase transactionId },
   db, effs)

/-- The catch block of `processNext`: write FAILED with a description built
from the error message, re-fetch the row with its ECO wallet, refund, and on
refund success email (when the user is found) and notify the user. -/
def handleProcessingError (s1 : QueueState) (db : Db) (transactionId msg : String)
    (effsSoFar : List Effect) (env : QEnv) : QueueState × Db × List Effect :=
  let db2 := failTxQueue db transactionId msg
  let effs1 := effsSoFar ++ [Effect.statusWrite transactionId TxStatus.FAILED]
  match findTx db2 transactionId with
  | none => finishRun s1 transactionId db2 effs1
  | some tx =>
      match tx.wallet with
      | none => finishRun s1 transactionId db2 effs1
      | some w =>
          let effs2 := effs1 ++ [Effect.refundCall transactionId tx.amount]
          if env.refundOk = false then
            finishRun s1 transactionId db2 effs2
          else
            let emailEffs := if env.userFound then [Effect.emailFailed transactionId] else []
            finishRun s1 transactionId db2
              (effs2 ++ emailEffs ++ [Effect.notifyFailed tx.userId tx.amount w.currency])

/-- `WithdrawalQueue.processNext` for the item at the head of the queue:
single-flight guard, row fetch with ECO-wallet join, conditional
PENDING to PROCESSING claim, metadata validation, chain dispatch, success
bookkeeping (confirmation email, admin profit when fee is a positive number),
error handling, and the `finally` cleanup. -/
def processNext (sol : SolState) (xmr : XmrState) (s : QueueState) (db : Db) (env : QEnv) :
    QueueState × Db × List Effect :=
  if s.isProcessing then (s, db, [])
  else
    match s.queue with
    | [] => (s, db, [])
    | transactionId :: rest =>
      let s1 : QueueState :=
        { queue := rest, isProcessing := true,
          processingTransactions := transactionId :: s.processingTransactions }
      match findTx db transactionId with
      | none => finishRun s1 transactionId db []
      | some tx =>
        match tx.wallet with
        | none => finishRun s1 transactionId db []
        | some _ =>
          let c := claimPending db transactionId
          if c.2 == 0 then finishRun s1 transactionId c.1 []
          else
            let claimEffs := [Effect.statusWrite transactionId TxStatus.PROCESSING]
            match tx.metadata with
            | none =>
                handleProcessingError s1 c.1 transactionId
                  "Invalid or missing chain in transaction metadata" claimEffs env
            | some m =>
              if m.chain == "" then
                handleProcessingError s1 c.1 transactionId
                  "Invalid or missing chain in transaction metadata" claimEffs env
              else
                let d := dispatchChain sol xmr c.1 tx m env
                match d.2.2 with
                | Except.error msg =>
                    handleProcessingError s1 d.1 transactionId msg (claimEffs ++ d.2.1) env
                | Except.ok _ =>
                  match env.postError with
                  | some msg =>
                      handleProcessingError s1 d.1 transactionId msg (claimEffs ++ d.2.1) env
                  | none =>
                    let emailEffs :=
                      if env.userFound && env.walletFound then
                        [Effect.emailConfirmation transactionId]
                      else []
                    let profitEffs :=
                      match tx.fee with
                      | some f =>
                          if 0 < f then
                            [Effect.adminProfit f
                              ((tx.wallet.map (fun w => w.currency)).getD "")
                              m.chain transactionId]
                          else []
                      | none => []
                    finishRun s1 transactionId d.1
                      (claimEffs ++ d.2.1 ++ emailEffs ++ profitEffs)

end WithdrawalQueue

/-- The (id, status) sequence of transaction-status writes in a trace. -/
def statusWrites (effs : List Effect) : List (String × TxStatus) :=
  effs.filterMap (fun e => match e with
    | Effect.statusWrite id st => some (id, st)
    | _ => none)

/-- The amounts of the refund calls in a trace. -/
def refundCalls (effs : List Effect) : List Rat :=
  effs.filterMap (fun e => match e with
    | Effect.refundCall _ a => some a
    | _ => none)

/-- The withdrawal-failed notifications in a trace. -/
def notifyCalls (effs : List Effect) : List (String × Rat × String) :=
  effs.filterMap (fun e => match e with
    | Effect.notifyFailed u a c => some (u, a, c)
    | _ => none)

/-- The admin-profit ledger entries (amount, currency, chain, transactionId)
in a trace. -/
def adminProfitEntries (effs : List Effect) : List (Rat × String × String × String) :=
  effs.filterMap (fun e => match e with
    | Effect.adminProfit a cur ch id => some (a, cur, ch, id)
    | _ => none)

/-- The number of deposit records stored and broadcast in a trace. -/
def countStores (effs : List Effect) : Nat :=
  effs.countP (fun e => match e with
    | Effect.storeDeposit _ _ _ _ => true
    | _ => false)

/-- The transaction-store write operations the embedded system performs. -/
inductive SysOp
  | claim (id : String)
  | failQ (id msg : String)
  | failW (id msg : String)
  | complete (id ref : String)
  | deposit (walletId hash : String) (amount fee : Rat)
deriving Repr

/-- Apply one store write. -/
def applySysOp (db : Db) : SysOp → Db
  | SysOp.claim id => (claimPending db id).1
  | SysOp.failQ id msg => failTxQueue db id msg
  | SysOp.failW id msg => failTxWithdrawal db id msg
  | SysOp.complete id ref => completeTx db id ref
  | SysOp.deposit w h a f => (MoneroService.storeAndBroadcastTransaction db w h a f).1

/-- Apply a sequence of store writes. -/
def applySysOps (db : Db) (ops : List SysOp) : Db := ops.foldl applySysOp db

/-- No row with this id is PENDING: exactly the state in which the
conditional claim affects zero rows. -/
def noPendingRow (db : Db) (id : String) : Prop :=
  ∀ t ∈ db, t.id = id → t.status ≠ TxStatus.PENDING

/- ### Store lemmas -/

theorem findTx_mapTx (db : Db) (id : String) (f : TxRecord → TxRecord)
    (hid : ∀ t, (f t).id = t.id) :
    findTx (mapTx db id f) id = (findTx db id).map f := by
  induction db with
  | nil => rfl
  | cons t ts ih =>
      by_cases h : t.id = id
      · have hf : (f t).id = id := by rw [hid t]; exact h
        simp only [findTx, mapTx, List.map_cons]
        rw [if_pos (by simp [h])]
        simp [List.find?, h, hf]
      · have hb : (t.id == id) = false := by simp [h]
        simp only [findTx, mapTx, List.map_cons]
        rw [if_neg (by simp [h])]
        simp only [List.find?, hb]
        exact ih

theorem mapTx_id_of_fixed (db : Db) (id : String) (f : TxRecord → TxRecord)
    (h : ∀ t ∈ db, t.id = id → f t = t) : mapTx db id f = db := by
  unfold mapTx
  have hc : ∀ t ∈ db, (if t.id == id then f t else t) = t := by
    intro t ht
    by_cases hid : t.id = id
    · simp only [hid, beq_self_eq_true, if_true]
      exact h t ht hid
    · simp [hid]
  calc db.map (fun t => if t.id == id then f t else t)
      = db.map (fun t => t) := List.map_congr_left hc
    _ = db := by simp

theorem claimPending_count_zero_iff (db : Db) (id : String) :
    (claimPending db id).2 = 0 ↔ noPendingRow db id := by
  unfold claimPending noPendingRow
  rw [List.countP_eq_zero]
  constructor
  · intro h t ht hid hst
    have hp := h t ht
    rw [hid, hst] at hp
    simp at hp
  · intro h t ht
    simp only [Bool.and_eq_true, beq_iff_eq, not_and]
    intro hid hst
    exact h t ht hid hst

theorem claimPending_succeeds_iff (db : Db) (id : String) :
    (claimPending db id).2 ≠ 0 ↔ ∃ t ∈ db, t.id = id ∧ t.status = TxStatus.PENDING := by
  rw [Ne, claimPending_count_zero_iff]
  unfold noPendingRow
  push_neg
  constructor
  · rintro ⟨t, ht, hid, hst⟩; exact ⟨t, ht, hid, hst⟩
  · rintro ⟨t, ht, hid, hst⟩; exact ⟨t, ht, hid, hst⟩

theorem noPendingRow_after_claim (db : Db) (id : String) :
    noPendingRow (claimPending db id).1 id := by
  intro t ht hid hst
  simp only [claimPending, mapTx, List.mem_map] at ht
  obtain ⟨t0, _, rfl⟩ := ht
  by_cases h0 : t0.id = id
  · by_cases hp : t0.status = TxStatus.PENDING
    · simp [h0, hp] at hst
    · rw [if_pos (by simp [h0]), if_neg (by simp [hp])] at hst
      exact hp hst
  · rw [if_neg (by simp [h0])] at hid
    exact h0 hid

theorem noPendingRow_applySysOp (db : Db) (id : String) (op : SysOp)
    (h : noPendingRow db id) : noPendingRow (applySysOp db op) id := by
  cases op with
  | claim i =>
      by_cases hii : i = id
      · subst hii; exact noPendingRow_after_claim db i
      · intro t ht hid hst
        simp only [applySysOp, claimPending, mapTx, List.mem_map] at ht
        obtain ⟨t0, ht0, rfl⟩ := ht
        by_cases h0 : t0.id = i
        · by_cases hp : t0.status = TxStatus.PENDING
          · rw [if_pos (by simp [h0]), if_pos (by simp [hp])] at hst
            simp at hst
          · rw [if_pos (by simp [h0]), if_neg (by simp [hp])] at hst hid
            exact h t0 ht0 hid hst
        · rw [if_neg (by simp [h0])] at hst hid
          exact h t0 ht0 hid hst
  | failQ i msg =>
      intro t ht hid hst
      simp only [applySysOp, failTxQueue, mapTx, List.mem_map] at ht
      obtain ⟨t0, ht0, rfl⟩ := ht
      by_cases h0 : t0.id = i
      · simp [h0] at hst
      · simp [h0] at hst hid
        exact h t0 ht0 hid hst
  | failW i msg =>
      intro t ht hid hst
      simp only [applySysOp, failTxWithdrawal, mapTx, List.mem_map] at ht
      obtain ⟨t0, ht0, rfl⟩ := ht
      by_cases h0 : t0.id = i
      · simp [h0] at hst
      · simp [h0] at hst hid
        exact h t0 ht0 hid hst
  | complete i ref =>
      intro t ht hid hst
      simp only [applySysOp, completeTx, mapTx, List.mem_map] at ht
      obtain ⟨t0, ht0, rfl⟩ := ht
      by_cases h0 : t0.id = i
      · simp [h0] at hst
      · simp [h0] at hst hid
        exact h t0 ht0 hid hst
  | deposit w hsh a f =>
      intro t ht hid hst
      simp only [applySysOp, MoneroService.storeAndBroadcastTransaction, List.mem_cons] at ht
      rcases ht with rfl | ht
      · simp at hst
      · exact h t ht hid hst

theorem noPendingRow_applySysOps (db : Db) (id : String) (ops : List SysOp)
    (h : noPendingRow db id) : noPendingRow (applySysOps db ops) id := by
  induction ops generalizing db with
  | nil => exact h
  | cons op ops ih =>
      exact ih (applySysOp db op) (noPendingRow_applySysOp db id op h)

theorem claimPending_zero_db (db : Db) (id : String)
    (h : (claimPending db id).2 = 0) : (claimPending db id).1 = db := by
  rw [claimPending_count_zero_iff] at h
  unfold claimPending
  exact mapTx_id_of_fixed db id _ (fun t ht hid => by simp [h t ht hid])

/- ### Trace-extractor simp lemmas -/

@[simp] theorem statusWrites_nil : statusWrites [] = [] := rfl

@[simp] theorem statusWrites_append (a b : List Effect) :
    statusWrites (a ++ b) = statusWrites a ++ statusWrites b := by
  simp [statusWrites, List.filterMap_append]

@[simp] theorem refundCalls_nil : refundCalls [] = [] := rfl

@[simp] theorem refundCalls_append (a b : List Effect) :
    refundCalls (a ++ b) = refundCalls a ++ refundCalls b := by
  simp [refundCalls, List.filterMap_append]

@[simp] theorem notifyCalls_nil : notifyCalls [] = [] := rfl

@[simp] theorem notifyCalls_append (a b : List Effect) :
    notifyCalls (a ++ b) = notifyCalls a ++ notifyCalls b := by
  simp [notifyCalls, List.filterMap_append]

@[simp] theorem adminProfitEntries_nil : adminProfitEntries [] = [] := rfl

@[simp] theorem adminProfitEntries_append (a b : List Effect) :
    adminProfitEntries (a ++ b) = adminProfitEntries a ++ adminProfitEntries b := by
  simp [adminProfitEntries, List.filterMap_append]

@[simp] theorem statusWrites_cons (e : Effect) (l : List Effect) :
    statusWrites (e :: l) = (match e with
      | Effect.statusWrite i s => [(i, s)]
      | _ => []) ++ statusWrites l := by
  cases e <;> rfl

@[simp] theorem refundCalls_cons (e : Effect) (l : List Effect) :
    refundCalls (e :: l) = (match e with
      | Effect.refundCall _ a => [a]
      | _ => []) ++ refundCalls l := by
  cases e <;> rfl

@[simp] theorem notifyCalls_cons (e : Effect) (l : List Effect) :
    notifyCalls (e :: l) = (match e with
      | Effect.notifyFailed u a c => [(u, a, c)]
      | _ => []) ++ notifyCalls l := by
  cases e <;> rfl

@[simp] theorem adminProfitEntries_cons (e : Effect) (l : List Effect) :
    adminProfitEntries (e :: l) = (match e with
      | Effect.adminProfit a cur ch id => [(a, cur, ch, id)]
      | _ => []) ++ adminProfitEntries l := by
  cases e <;> rfl

/- ### Row-update shape lemmas -/

/-- The row update touches none of id, walletId, userId, amount, fee,
metadata, wallet. -/
def CoreSame (g : TxRecord → TxRecord) : Prop :=
  ∀ t, (g t).id = t.id ∧ (g t).walletId = t.walletId ∧ (g t).userId = t.userId ∧
    (g t).amount = t.amount ∧ (g t).fee = t.fee ∧ (g t).metadata = t.metadata ∧
    (g t).wallet = t.wallet

/-- The first row with this id keeps all core fields between two states. -/
def FieldsPreserved (db db' : Db) (id : String) : Prop :=
  ∀ t, findTx db id = some t →
    ∃ t', findTx db' id = some t' ∧ t'.walletId = t.walletId ∧ t'.userId = t.userId ∧
      t'.amount = t.amount ∧ t'.fee = t.fee ∧ t'.metadata = t.metadata ∧
      t'.wallet = t.wallet

theorem fieldsPreserved_refl (db : Db) (id : String) : FieldsPreserved db db id := by
  intro t ht
  exact ⟨t, ht, rfl, rfl, rfl, rfl, rfl, rfl⟩

theorem fieldsPreserved_trans {db1 db2 db3 : Db} {id : String}
    (h1 : FieldsPreserved db1 db2 id) (h2 : FieldsPreserved db2 db3 id) :
    FieldsPreserved db1 db3 id := by
  intro t ht
  obtain ⟨t2, ht2, e1, e2, e3, e4, e5, e6⟩ := h1 t ht
  obtain ⟨t3, ht3, f1, f2, f3, f4, f5, f6⟩ := h2 t2 ht2
  exact ⟨t3, ht3, f1.trans e1, f2.trans e2, f3.trans e3, f4.trans e4,
    f5.trans e5, f6.trans e6⟩

theorem fieldsPreserved_mapTx (db : Db) (id : String) (g : TxRecord → TxRecord)
    (hg : CoreSame g) : FieldsPreserved db (mapTx db id g) id := by
  intro t ht
  have hfind := findTx_mapTx db id g (fun t => (hg t).1)
  rw [ht] at hfind
  obtain ⟨h1, h2, h3, h4, h5, h6, h7⟩ := hg t
  exact ⟨g t, by simpa using hfind, h2, h3, h4, h5, h6, h7⟩

theorem coreSame_claim :
    CoreSame (fun t => if t.status == TxStatus.PENDING then
      { t with status := TxStatus.PROCESSING } else t) := by
  intro t
  by_cases h : t.status = TxStatus.PENDING <;> simp [h]

theorem coreSame_fail (d : String) :
    CoreSame (fun t => { t with status := TxStatus.FAILED, description := some d }) := by
  intro t; simp

theorem coreSame_complete (r : String) :
    CoreSame (fun t => { t with status := TxStatus.COMPLETED, referenceId := some r }) := by
  intro t; simp

theorem fieldsPreserved_claim (db : Db) (id : String) :
    FieldsPreserved db (claimPending db id).1 id :=
  fieldsPreserved_mapTx db id _ coreSame_claim

theorem fieldsPreserved_failTxWithdrawal (db : Db) (id msg : String) :
    FieldsPreserved db (failTxWithdrawal db id msg) id :=
  fieldsPreserved_mapTx db id _ (coreSame_fail _)

theorem fieldsPreserved_completeTx (db : Db) (id ref : String) :
    FieldsPreserved db (completeTx db id ref) id :=
  fieldsPreserved_mapTx db id _ (coreSame_complete _)

/-- After the queue failure write, the first row with this id is FAILED with
the built description, and keeps every other field. -/
theorem findTx_failTxQueue (db : Db) (id msg : String) (t : TxRecord)
    (ht : findTx db id = some t) :
    findTx (failTxQueue db id msg) id =
      some { t with status := TxStatus.FAILED,
                    description := some ("Transaction failed: " ++ msg) } := by
  unfold failTxQueue
  rw [findTx_mapTx db id
    (fun t => { t with status := TxStatus.FAILED,
                       description := some ("Transaction failed: " ++ msg) })
    (fun t => rfl), ht]
  rfl

/- ### Handler characterization -/

/-- A chain-level trace: no store status writes, refunds, notifications or
admin-profit entries (those are queue-level effects). -/
def TraceClean (effs : List Effect) : Prop :=
  statusWrites effs = [] ∧ refundCalls effs = [] ∧ notifyCalls effs = [] ∧
    adminProfitEntries effs = []

/-- Common contract of the per-chain handlers as invoked by the queue: an
id-targeted, core-preserving store change; no refunds, notifications or
admin-profit entries in the trace; a success trace writes exactly COMPLETED;
a failure trace writes FAILED or nothing. -/
def HandlerSpec (db : Db) (id : String) (out : Db × List Effect × Except String Unit) : Prop :=
  FieldsPreserved db out.1 id ∧
  refundCalls out.2.1 = [] ∧
  notifyCalls out.2.1 = [] ∧
  adminProfitEntries out.2.1 = [] ∧
  (∀ u, out.2.2 = Except.ok u → statusWrites out.2.1 = [(id, TxStatus.COMPLETED)]) ∧
  (∀ msg, out.2.2 = Except.error msg →
    statusWrites out.2.1 = [] ∨ statusWrites out.2.1 = [(id, TxStatus.FAILED)])

theorem transferSol_cases (l : Int) (env : SolEnv) :
    ∃ effs, TraceClean effs ∧
      ((∃ sig, SolanaService.transferSol l env = (effs, Except.ok sig)) ∨
       (∃ msg, SolanaService.transferSol l env = (effs, Except.error msg))) := by
  rcases env with ⟨kf, sig, cok, fin⟩
  cases kf <;> cases cok <;> cases fin <;>
    simp [SolanaService.transferSol, TraceClean]

theorem handleGenericWithdrawal_spec (db : Db) (tid chain : String)
    (r : Except String String) :
    HandlerSpec db tid (WithdrawalQueue.handleGenericWithdrawal db tid chain r) := by
  cases r with
  | ok ref =>
      refine ⟨fieldsPreserved_completeTx db tid ref, ?_, ?_, ?_, ?_, ?_⟩ <;>
        simp [WithdrawalQueue.handleGenericWithdrawal]
  | error msg =>
      refine ⟨fieldsPreserved_refl db tid, ?_, ?_, ?_, ?_, ?_⟩ <;>
        simp [WithdrawalQueue.handleGenericWithdrawal]

theorem handleSolanaWithdrawal_spec (st : SolState) (db : Db) (tid wid : String)
    (amt : Rat) (toA : String) (env : SolEnv) :
    HandlerSpec db tid (SolanaService.handleSolanaWithdrawal st db tid wid amt toA env) := by
  obtain ⟨effs, ⟨c1, c2, c3, c4⟩, hc⟩ := transferSol_cases (solToLamports amt) env
  unfold SolanaService.handleSolanaWithdrawal
  rcases hc with ⟨sig, heq⟩ | ⟨msg, heq⟩
  · rw [heq]
    dsimp only
    by_cases hs : sig = ""
    · rw [if_pos (by simp [hs])]
      refine ⟨fieldsPreserved_failTxWithdrawal db tid _, ?_, ?_, ?_, ?_, ?_⟩ <;>
        simp [c1, c2, c3, c4]
    · rw [if_neg (by simp [hs])]
      refine ⟨fieldsPreserved_completeTx db tid sig, ?_, ?_, ?_, ?_, ?_⟩ <;>
        simp [c1, c2, c3, c4]
  · rw [heq]
    dsimp only
    refine ⟨fieldsPreserved_failTxWithdrawal db tid msg, ?_, ?_, ?_, ?_, ?_⟩ <;>
      simp [c1, c2, c3, c4]

theorem handleMoneroWithdrawal_spec (st : XmrState) (db : Db) (tid wid : String)
    (amt : Rat) (toA : String) (env : XmrEnv) :
    HandlerSpec db tid (MoneroService.handleMoneroWithdrawal st db tid wid amt toA env) := by
  rcases env with ⟨oe, th⟩
  unfold MoneroService.handleMoneroWithdrawal
  cases oe with
  | some e =>
      dsimp only
      refine ⟨fieldsPreserved_failTxWithdrawal db tid _, ?_, ?_, ?_, ?_, ?_⟩ <;>
        simp
  | none =>
      cases th with
      | none =>
          dsimp only
          refine ⟨fieldsPreserved_failTxWithdrawal db tid _, ?_, ?_, ?_, ?_, ?_⟩ <;>
            simp
      | some h =>
          dsimp only
          refine ⟨fieldsPreserved_completeTx db tid h, ?_, ?_, ?_, ?_, ?_⟩ <;>
            simp

theorem dispatchChain_spec (sol : SolState) (xmr : XmrState) (db : Db) (tx : TxRecord)
    (m : TxMeta) (env : QEnv) :
    HandlerSpec db tx.id (WithdrawalQueue.dispatchChain sol xmr db tx m env) := by
  unfold WithdrawalQueue.dispatchChain
  split
  · exact handleGenericWithdrawal_spec db tx.id m.chain env.genericResult
  · split
    · exact handleSolanaWithdrawal_spec sol db tx.id tx.walletId tx.amount m.toAddress env.solEnv
    · split
      · exact handleGenericWithdrawal_spec db tx.id m.chain env.genericResult
      · split
        · exact handleMoneroWithdrawal_spec xmr db tx.id tx.walletId tx.amount m.toAddress env.xmrEnv
        · exact handleGenericWithdrawal_spec db tx.id m.chain env.genericResult

/- ### Queue error-handler lemmas -/

theorem handleProcessingError_eq (s1 : QueueState) (db : Db) (tid msg : String)
    (effsSoFar : List Effect) (env : QEnv) :
    ∃ extra : List Effect,
      WithdrawalQueue.handleProcessingError s1 db tid msg effsSoFar env =
        ({ s1 with isProcessing := false,
                   processingTransactions := s1.processingTransactions.erase tid },
         failTxQueue db tid msg,
         effsSoFar ++ [Effect.statusWrite tid TxStatus.FAILED] ++ extra) ∧
      statusWrites extra = [] ∧ adminProfitEntries extra = [] := by
  unfold WithdrawalQueue.handleProcessingError WithdrawalQueue.finishRun
  dsimp only
  rcases hft : findTx (failTxQueue db tid msg) tid with _ | tx
  · exact ⟨[], by simp, rfl, rfl⟩
  · dsimp only
    rcases hwt : tx.wallet with _ | w
    · exact ⟨[], by simp, rfl, rfl⟩
    · dsimp only
      cases hr : env.refundOk
      · rw [if_pos rfl]
        exact ⟨[Effect.refundCall tid tx.amount], by simp, rfl, rfl⟩
      · rw [if_neg (by simp)]
        cases hu : env.userFound
        · rw [if_neg (by simp)]
          exact ⟨[Effect.refundCall tid tx.amount] ++ [] ++
            [Effect.notifyFailed tx.userId tx.amount w.currency], by simp, by simp, by simp⟩
        · rw [if_pos rfl]
          exact ⟨[Effect.refundCall tid tx.amount] ++ [Effect.emailFailed tid] ++
            [Effect.notifyFailed tx.userId tx.amount w.currency], by simp, by simp, by simp⟩

theorem handleProcessingError_refunds (s1 : QueueState) (db : Db) (tid msg : String)
    (effsSoFar : List Effect) (env : QEnv) (tx : TxRecord) (w : WalletRow)
    (hf : findTx db tid = some tx) (hw : tx.wallet = some w) :
    refundCalls (WithdrawalQueue.handleProcessingError s1 db tid msg effsSoFar env).2.2 =
      refundCalls effsSoFar ++ [tx.amount] ∧
    notifyCalls (WithdrawalQueue.handleProcessingError s1 db tid msg effsSoFar env).2.2 =
      notifyCalls effsSoFar ++
        (if env.refundOk then [(tx.userId, tx.amount, w.currency)] else []) := by
  have hf2 := findTx_failTxQueue db tid msg tx hf
  unfold WithdrawalQueue.handleProcessingError WithdrawalQueue.finishRun
  dsimp only
  rw [hf2]
  dsimp only
  rw [hw]
  dsimp only
  cases hr : env.refundOk
  · rw [if_pos rfl]
    simp
  · rw [if_neg (by simp)]
    cases hu : env.userFound
    · rw [if_neg (by simp)]
      simp
    · rw [if_pos rfl]
      simp

theorem findTx_eq_some (db : Db) (tid : String) (tx : TxRecord)
    (h : findTx db tid = some tx) : tx ∈ db ∧ tx.id = tid := by
  unfold findTx at h
  refine ⟨List.mem_of_find?_eq_some h, ?_⟩
  have hp := List.find?_some h
  simpa using hp

theorem findTx_failTxWithdrawal (db : Db) (id msg : String) (t : TxRecord)
    (ht : findTx db id = some t) :
    findTx (failTxWithdrawal db id msg) id =
      some { t with status := TxStatus.FAILED,
                    description := some ("Withdrawal failed: " ++ msg) } := by
  unfold failTxWithdrawal
  rw [findTx_mapTx db id
    (fun t => { t with status := TxStatus.FAILED,
                       description := some ("Withdrawal failed: " ++ msg) })
    (fun t => rfl), ht]
  rfl

theorem findTx_completeTx (db : Db) (id ref : String) (t : TxRecord)
    (ht : findTx db id = some t) :
    findTx (completeTx db id ref) id =
      some { t with status := TxStatus.COMPLETED, referenceId := some ref } := by
  unfold completeTx
  rw [findTx_mapTx db id
    (fun t => { t with status := TxStatus.COMPLETED, referenceId := some ref })
    (fun t => rfl), ht]
  rfl

/- ### Concrete sample data for witnesses -/

/-- A PENDING SOL withdrawal row as in the spec example scenario. -/
def txSample : TxRecord :=
  { id := "tx1", walletId := "w1", userId := "u1", amount := 1,
    fee := some (5/2), status := TxStatus.PENDING, referenceId := none,
    description := none,
    metadata := some { chain := "SOL", toAddress := "Addr1" },
    wallet := some { currency := "SOL" } }

/-- The sample row already claimed by another execution. -/
def txProcessing : TxRecord := { txSample with status := TxStatus.PROCESSING }

/-- A Solana environment in which the transfer succeeds with signature Sig1. -/
def solEnvOk : SolEnv :=
  { keyFound := true, sendSig := "Sig1", confirmOk := true,
    final := SolFinal.confirmedOk }

/-- A Monero environment in which the transfer succeeds with hash Hash1. -/
def xmrEnvOk : XmrEnv := { openError := none, txHash := some "Hash1" }

/-- Collaborators all succeed. -/
def qEnvOk : QEnv :=
  { solEnv := solEnvOk, xmrEnv := xmrEnvOk, genericResult := Except.ok "Ref1",
    userFound := true, walletFound := true, postError := none, refundOk := true }

/-- Both probes succeeded at startup. -/
def solActive : SolState := { chainActive := true }

/-- Monero daemon synchronized at startup. -/
def xmrActive : XmrState := { chainActive := true }

/- ### Claims -/

/-- Claim C1: the PENDING to PROCESSING transition of `processNext` is a
conditional update that succeeds exactly when a PENDING row with the id
exists; when it affects zero rows the run abandons the item — identical
store, no effects, no chain transfer — and once any claim has run, no
sequence of system store writes lets a claim of the same id succeed again,
so the transition cannot succeed twice even under concurrent or replayed
enqueues. -/
theorem C1_claim_at_most_once :
    (∀ (db : Db) (id : String),
      (claimPending db id).2 ≠ 0 ↔
        ∃ t ∈ db, t.id = id ∧ t.status = TxStatus.PENDING) ∧
    (∀ sol xmr (s : QueueState) (db : Db) (env : QEnv) tid rest (tx : TxRecord) w,
      s.isProcessing = false → s.queue = tid :: rest →
      findTx db tid = some tx → tx.wallet = some w →
      (claimPending db tid).2 = 0 →
      WithdrawalQueue.processNext sol xmr s db env =
        ({ queue := rest, isProcessing := false,
           processingTransactions := s.processingTransactions }, db, [])) ∧
    (∀ (db : Db) (id : String) (ops : List SysOp),
      (claimPending (applySysOps (claimPending db id).1 ops) id).2 = 0) := by
  refine ⟨claimPending_succeeds_iff, ?_, ?_⟩
  · intro sol xmr s db env tid rest tx w hip hq hf hw hc0
    unfold WithdrawalQueue.processNext
    rw [if_neg (by simp [hip])]
    rw [hq]
    dsimp only
    rw [hf]
    dsimp only
    rw [hw]
    dsimp only
    rw [if_pos (by simp [hc0])]
    rw [claimPending_zero_db db tid hc0]
    unfold WithdrawalQueue.finishRun
    simp
  · intro db id ops
    rw [claimPending_count_zero_iff]
    exact noPendingRow_applySysOps _ id ops (noPendingRow_after_claim db id)

/-- Witness for C1 at a concrete input: the row is already PROCESSING, the
conditional update affects zero rows, and the run abandons the item without
any write or chain call. -/
theorem C1_claim_at_most_once_witness :
    WithdrawalQueue.processNext solActive xmrActive
      { queue := ["tx1"], isProcessing := false, processingTransactions := [] }
      [txProcessing] qEnvOk =
      ({ queue := [], isProcessing := false, processingTransactions := [] },
       [txProcessing], []) :=
  C1_claim_at_most_once.2.1 solActive xmrActive
    { queue := ["tx1"], isProcessing := false, processingTransactions := [] }
    [txProcessing] qEnvOk "tx1" [] txProcessing { currency := "SOL" }
    rfl rfl rfl rfl rfl

/-- Claim C2: `addTransaction` is idempotent — a no-op when the id is
in-flight or already queued — and otherwise appends the id to the ordered
pending list and triggers processing, which actually runs only when the
queue is idle. -/
theorem C2_addTransaction_idempotent (s : QueueState) (transactionId : String) :
    ((transactionId ∈ s.processingTransactions ∨ transactionId ∈ s.queue) →
      WithdrawalQueue.addTransaction s transactionId = (s, false)) ∧
    (transactionId ∉ s.processingTransactions → transactionId ∉ s.queue →
      WithdrawalQueue.addTransaction s transactionId =
        ({ s with queue := s.queue ++ [transactionId] }, true)) ∧
    (∀ sol xmr (db : Db) (env : QEnv), s.isProcessing = true →
      WithdrawalQueue.processNext sol xmr s db env = (s, db, [])) := by
  refine ⟨?_, ?_, ?_⟩
  · rintro (h | h)
    · simp [WithdrawalQueue.addTransaction, h]
    · by_cases hp : transactionId ∈ s.processingTransactions
      · simp [WithdrawalQueue.addTransaction, hp]
      · simp [WithdrawalQueue.addTransaction, hp, h]
  · intro h1 h2
    simp [WithdrawalQueue.addTransaction, h1, h2]
  · intro sol xmr db env h
    unfold WithdrawalQueue.processNext
    rw [if_pos h]

/-- Witness for C2 at concrete inputs: re-adding a queued id is a no-op,
and adding a fresh id appends it. -/
theorem C2_addTransaction_idempotent_witness :
    WithdrawalQueue.addTransaction
      { queue := ["tx1"], isProcessing := false, processingTransactions := [] } "tx1" =
      ({ queue := ["tx1"], isProcessing := false, processingTransactions := [] }, false) ∧
    WithdrawalQueue.addTransaction
      { queue := [], isProcessing := false, processingTransactions := [] } "tx1" =
      ({ queue := ["tx1"], isProcessing := false, processingTransactions := [] }, true) :=
  ⟨(C2_addTransaction_idempotent
      { queue := ["tx1"], isProcessing := false, processingTransactions := [] } "tx1").1
      (Or.inr (by decide)),
   (C2_addTransaction_idempotent
      { queue := [], isProcessing := false, processingTransactions := [] } "tx1").2.1
      (by decide) (by decide)⟩

/-- Claim C7: `transferSol` does not treat a confirmation-wait failure as
failure: its whole output is independent of the confirmation outcome; it
re-queries the transaction and resolves success (the signature) or failure
from the final on-chain state; an on-chain error in the final state is
reported as failure and only a transaction lacking any final state is
reported as "not found or not confirmed". -/
theorem C7_transferSol_final_state (l : Int) (env : SolEnv)
    (hk : env.keyFound = true) :
    (∀ b, SolanaService.transferSol l env =
       SolanaService.transferSol l { env with confirmOk := b }) ∧
    Effect.solGetTx env.sendSig ∈ (SolanaService.transferSol l env).1 ∧
    (env.final = SolFinal.confirmedOk →
      (SolanaService.transferSol l env).2 = Except.ok env.sendSig) ∧
    (∀ e, env.final = SolFinal.confirmedErr e →
      (SolanaService.transferSol l env).2 =
        Except.error ("Failed to transfer SOL: Transaction failed with error: " ++ e)) ∧
    (env.final = SolFinal.missing →
      (SolanaService.transferSol l env).2 =
        Except.error "Failed to transfer SOL: Transaction not found or not confirmed") := by
  rcases env with ⟨kf, sig, cok, fin⟩
  simp only at hk
  subst hk
  refine ⟨?_, ?_, ?_, ?_, ?_⟩
  · intro b
    cases b <;> cases cok <;> cases fin <;> rfl
  · cases cok <;> cases fin <;> simp [SolanaService.transferSol]
  · intro h
    simp only at h
    subst h
    cases cok <;> rfl
  · intro e h
    simp only at h
    subst h
    cases cok <;> rfl
  · intro h
    simp only at h
    subst h
    cases cok <;> rfl

/-- Witness for C7 at a concrete input: confirmation timed out, the final
state is present and ok, and the transfer still resolves to the signature. -/
theorem C7_transferSol_final_state_witness :
    (SolanaService.transferSol 1000000000
      { keyFound := true, sendSig := "Sig1", confirmOk := false,
        final := SolFinal.confirmedOk }).2 = Except.ok "Sig1" :=
  (C7_transferSol_final_state 1000000000
    { keyFound := true, sendSig := "Sig1", confirmOk := false,
      final := SolFinal.confirmedOk } rfl).2.2.1 rfl

/-- Claim C10: on every failing run of `handleSolanaWithdrawal` the store
update writes only the status (FAILED) and description fields — referenceId
keeps its prior value even though the raw transaction was broadcast and a
signature existed whenever the key was found — and referenceId is written
only together with COMPLETED on the success path. -/
theorem C10_sol_failure_frame (st : SolState) (db : Db) (tid wid : String)
    (amt : Rat) (toA : String) (env : SolEnv) (tx : TxRecord)
    (hf : findTx db tid = some tx) :
    (∀ msg, (SolanaService.handleSolanaWithdrawal st db tid wid amt toA env).2.2 =
        Except.error msg →
      findTx (SolanaService.handleSolanaWithdrawal st db tid wid amt toA env).1 tid =
        some { tx with status := TxStatus.FAILED,
                       description := some ("Withdrawal failed: " ++ msg) }) ∧
    ((SolanaService.handleSolanaWithdrawal st db tid wid amt toA env).2.2 =
        Except.ok () →
      ∃ sig, sig ≠ "" ∧
        findTx (SolanaService.handleSolanaWithdrawal st db tid wid amt toA env).1 tid =
          some { tx with status := TxStatus.COMPLETED, referenceId := some sig }) ∧
    (env.keyFound = true →
      Effect.solSendRaw env.sendSig (solToLamports amt) ∈
        (SolanaService.handleSolanaWithdrawal st db tid wid amt toA env).2.1) := by
  rcases env with ⟨kf, sig, cok, fin⟩
  cases kf
  · refine ⟨?_, ?_, ?_⟩
    · intro msg h
      dsimp only [SolanaService.handleSolanaWithdrawal, SolanaService.transferSol] at h ⊢
      injection h with h
      subst h
      exact findTx_failTxWithdrawal db tid _ tx hf
    · intro h
      dsimp only [SolanaService.handleSolanaWithdrawal, SolanaService.transferSol] at h
      exact Except.noConfusion h
    · intro hk
      exact Bool.noConfusion hk
  · cases fin with
    | confirmedOk =>
        by_cases hs : sig = ""
        · refine ⟨?_, ?_, ?_⟩
          · intro msg h
            dsimp only [SolanaService.handleSolanaWithdrawal, SolanaService.transferSol] at h ⊢
            rw [if_pos (by simp [hs])] at h ⊢
            injection h with h
            subst h
            exact findTx_failTxWithdrawal db tid _ tx hf
          · intro h
            dsimp only [SolanaService.handleSolanaWithdrawal, SolanaService.transferSol] at h
            rw [if_pos (by simp [hs])] at h
            exact Except.noConfusion h
          · intro _
            dsimp only [SolanaService.handleSolanaWithdrawal, SolanaService.transferSol]
            rw [if_pos (by simp [hs])]
            simp
        · refine ⟨?_, ?_, ?_⟩
          · intro msg h
            dsimp only [SolanaService.handleSolanaWithdrawal, SolanaService.transferSol] at h
            rw [if_neg (by simp [hs])] at h
            exact Except.noConfusion h
          · intro _
            refine ⟨sig, hs, ?_⟩
            dsimp only [SolanaService.handleSolanaWithdrawal, SolanaService.transferSol]
            rw [if_neg (by simp [hs])]
            exact findTx_completeTx db tid sig tx hf
          · intro _
            dsimp only [SolanaService.handleSolanaWithdrawal, SolanaService.transferSol]
            rw [if_neg (by simp [hs])]
            simp
    | confirmedErr e =>
        refine ⟨?_, ?_, ?_⟩
        · intro msg h
          dsimp only [SolanaService.handleSolanaWithdrawal, SolanaService.transferSol] at h ⊢
          injection h with h
          subst h
          exact findTx_failTxWithdrawal db tid _ tx hf
        · intro h
          dsimp only [SolanaService.handleSolanaWithdrawal, SolanaService.transferSol] at h
          exact Except.noConfusion h
        · intro _
          dsimp only [SolanaService.handleSolanaWithdrawal, SolanaService.transferSol]
          simp
    | missing =>
        refine ⟨?_, ?_, ?_⟩
        · intro msg h
          dsimp only [SolanaService.handleSolanaWithdrawal, SolanaService.transferSol] at h ⊢
          injection h with h
          subst h
          exact findTx_failTxWithdrawal db tid _ tx hf
        · intro h
          dsimp only [SolanaService.handleSolanaWithdrawal, SolanaService.transferSol] at h
          exact Except.noConfusion h
        · intro _
          dsimp only [SolanaService.handleSolanaWithdrawal, SolanaService.transferSol]
          simp

/-- Witness for C10 at a concrete input: the final state is missing, so the
transfer fails after the raw transaction was sent; only status and
description change, referenceId stays none. -/
theorem C10_sol_failure_frame_witness :
    findTx (SolanaService.handleSolanaWithdrawal solActive [txProcessing] "tx1" "w1" 1
        "Addr1" { keyFound := true, sendSig := "Sig1", confirmOk := false,
                  final := SolFinal.missing }).1 "tx1" =
      some { txProcessing with
               status := TxStatus.FAILED,
               description := some ("Withdrawal failed: " ++
                 "Failed to transfer SOL: Transaction not found or not confirmed") } :=
  (C10_sol_failure_frame solActive [txProcessing] "tx1" "w1" 1 "Addr1"
    { keyFound := true, sendSig := "Sig1", confirmOk := false, final := SolFinal.missing }
    txProcessing rfl).1 _ rfl

/-- Counterexample to claim C6: with the startup probe failed
(chainActive = false) the withdrawal entry points do not raise a
chain-inactive error and do not fail closed: `handleSolanaWithdrawal`
broadcasts the transfer and completes, and `handleMoneroWithdrawal` executes
the transfer RPC and completes. -/
theorem C6_counterexample :
    ((SolanaService.handleSolanaWithdrawal { chainActive := false }
        [txSample] "tx1" "w1" 1 "Addr1" solEnvOk).2.2 = Except.ok () ∧
     Effect.solSendRaw "Sig1" (solToLamports 1) ∈
       (SolanaService.handleSolanaWithdrawal { chainActive := false }
         [txSample] "tx1" "w1" 1 "Addr1" solEnvOk).2.1 ∧
     statusOf (SolanaService.handleSolanaWithdrawal { chainActive := false }
         [txSample] "tx1" "w1" 1 "Addr1" solEnvOk).1 "tx1" =
       some TxStatus.COMPLETED) ∧
    ((MoneroService.handleMoneroWithdrawal { chainActive := false }
        [txSample] "tx1" "w1" 1 "Addr1" xmrEnvOk).2.2 = Except.ok () ∧
     Effect.xmrTransferRpc (xmrToAtomic 1) "Addr1" ∈
       (MoneroService.handleMoneroWithdrawal { chainActive := false }
         [txSample] "tx1" "w1" 1 "Addr1" xmrEnvOk).2.1 ∧
     statusOf (MoneroService.handleMoneroWithdrawal { chainActive := false }
         [txSample] "tx1" "w1" 1 "Addr1" xmrEnvOk).1 "tx1" =
       some TxStatus.COMPLETED) := by
  refine ⟨⟨rfl, ?_, rfl⟩, ⟨rfl, ?_, rfl⟩⟩ <;> simp [SolanaService.handleSolanaWithdrawal,
    SolanaService.transferSol, MoneroService.handleMoneroWithdrawal, solEnvOk, xmrEnvOk]

/-- Claim C6 (amended): each backend exposes the chain-liveness guard and the
queued send `transferXMR` fails closed — chain-inactive error, no wallet
RPC — when the startup probe failed; but the withdrawal handlers invoked by
the queue never consult the probe: `handleSolanaWithdrawal` and
`handleMoneroWithdrawal` behave identically whether or not the chain is
active. -/
theorem C6_amended_liveness (db : Db) (tid wid toA : String) (amt : Rat) :
    (∀ senv : SolEnv,
      SolanaService.handleSolanaWithdrawal { chainActive := false } db tid wid amt toA senv =
        SolanaService.handleSolanaWithdrawal { chainActive := true } db tid wid amt toA senv) ∧
    (∀ xenv : XmrEnv,
      MoneroService.handleMoneroWithdrawal { chainActive := false } db tid wid amt toA xenv =
        MoneroService.handleMoneroWithdrawal { chainActive := true } db tid wid amt toA xenv) ∧
    (∀ (st : XmrState) (xenv : XmrEnv), st.chainActive = false →
      MoneroService.transferXMR st wid toA amt xenv =
        ([], Except.error "Chain Monero is not active.")) ∧
    (∀ st : XmrState, st.chainActive = false →
      MoneroService.ensureChainActive st = Except.error "Chain Monero is not active.") ∧
    (∀ st : SolState, st.chainActive = false →
      SolanaService.ensureChainActive st =
        Except.error "Chain SOL is not active in ecosystemBlockchain.") := by
  refine ⟨fun _ => rfl, fun _ => rfl, ?_, ?_, ?_⟩
  · rintro ⟨ca⟩ xenv h
    simp only at h
    subst h
    rfl
  · rintro ⟨ca⟩ h
    simp only at h
    subst h
    rfl
  · rintro ⟨ca⟩ h
    simp only at h
    subst h
    rfl

/-- Witness for the amended C6 at a concrete input: `transferXMR` on an
inactive chain raises the chain-inactive error with no wallet RPC. -/
theorem C6_amended_liveness_witness :
    MoneroService.transferXMR { chainActive := false } "w1" "Addr1" 1 xmrEnvOk =
      ([], Except.error "Chain Monero is not active.") :=
  (C6_amended_liveness [] "tx1" "w1" "Addr1" 1).2.2.1 { chainActive := false } xmrEnvOk rfl

/- ### Deposit-monitor lemmas -/

@[simp] theorem countStores_nil : countStores [] = 0 := rfl

@[simp] theorem countStores_append (a b : List Effect) :
    countStores (a ++ b) = countStores a + countStores b := by
  simp [countStores, List.countP_append]

@[simp] theorem countStores_cons (e : Effect) (l : List Effect) :
    countStores (e :: l) = (match e with
      | Effect.storeDeposit _ _ _ _ => 1
      | _ => 0) + countStores l := by
  cases e <;> simp [countStores, List.countP_cons] <;> omega

theorem processMoneroTransaction_mem (mon : MoneroService.XmrMonitorState) (db : Db)
    (h w : String) (e : MoneroService.XmrDepositEnv)
    (hmem : h ∈ mon.processedTransactions) :
    MoneroService.processMoneroTransaction mon db h w e = (mon, db, [], false) := by
  unfold MoneroService.processMoneroTransaction
  rw [if_pos hmem]

theorem processMoneroTransaction_store_cases (mon : MoneroService.XmrMonitorState)
    (db : Db) (h w : String) (e : MoneroService.XmrDepositEnv) :
    countStores (MoneroService.processMoneroTransaction mon db h w e).2.2.1 = 0 ∨
    (countStores (MoneroService.processMoneroTransaction mon db h w e).2.2.1 = 1 ∧
      h ∈ (MoneroService.processMoneroTransaction mon db h w e).1.processedTransactions) := by
  unfold MoneroService.processMoneroTransaction
  by_cases hmem : h ∈ mon.processedTransactions
  · rw [if_pos hmem]
    exact Or.inl rfl
  · rw [if_neg hmem]
    split
    · exact Or.inl rfl
    · rcases e with ⟨tr⟩
      cases tr with
      | none => exact Or.inl rfl
      | some info =>
          dsimp only
          split
          · exact Or.inl rfl
          · refine Or.inr ⟨rfl, ?_⟩
            simp [MoneroService.storeAndBroadcastTransaction]

theorem runMoneroDeposits_mem_zero (mon : MoneroService.XmrMonitorState) (db : Db)
    (h w : String) (envs : List MoneroService.XmrDepositEnv)
    (hmem : h ∈ mon.processedTransactions) :
    countStores (MoneroService.runMoneroDeposits mon db h w envs).2.2 = 0 := by
  induction envs generalizing mon db with
  | nil => rfl
  | cons e es ih =>
      unfold MoneroService.runMoneroDeposits
      rw [processMoneroTransaction_mem mon db h w e hmem]
      dsimp only
      simpa using ih mon db hmem

theorem processMoneroTransaction_mem_mono (mon : MoneroService.XmrMonitorState)
    (db : Db) (h w : String) (e : MoneroService.XmrDepositEnv)
    (hmem : h ∈ mon.processedTransactions) :
    h ∈ (MoneroService.processMoneroTransaction mon db h w e).1.processedTransactions := by
  rw [processMoneroTransaction_mem mon db h w e hmem]
  exact hmem

theorem runMoneroDeposits_le_one (mon : MoneroService.XmrMonitorState) (db : Db)
    (h w : String) (envs : List MoneroService.XmrDepositEnv) :
    countStores (MoneroService.runMoneroDeposits mon db h w envs).2.2 ≤ 1 := by
  induction envs generalizing mon db with
  | nil => exact Nat.zero_le 1
  | cons e es ih =>
      unfold MoneroService.runMoneroDeposits
      dsimp only
      rw [countStores_append]
      rcases processMoneroTransaction_store_cases mon db h w e with h0 | ⟨h1, hmem⟩
      · rw [h0]
        simpa using ih _ _
      · rw [h1]
        have hz := runMoneroDeposits_mem_zero
          (MoneroService.processMoneroTransaction mon db h w e).1
          (MoneroService.processMoneroTransaction mon db h w e).2.1 h w es hmem
        omega

/-- Claim C5: for every chain-native transaction id fed to the Monero deposit
monitor — possibly many times — at most one deposit record is created: a hit
in the in-memory processed set short-circuits with no store access; otherwise
a COMPLETED row with the id as referenceId in the durable store suppresses
creation and caches the id; only when both checks are negative (and the
transfer is found on chain with nonzero amount and fee) is the record created
and broadcast, after which the id is in the in-memory set. -/
theorem C5_deposit_dedup :
    (∀ (mon : MoneroService.XmrMonitorState) (db : Db) (h w : String)
        (e : MoneroService.XmrDepositEnv),
      h ∈ mon.processedTransactions →
        MoneroService.processMoneroTransaction mon db h w e = (mon, db, [], false)) ∧
    (∀ (mon : MoneroService.XmrMonitorState) (db : Db) (h w : String)
        (e : MoneroService.XmrDepositEnv),
      h ∉ mon.processedTransactions →
      (db.any (fun t => t.referenceId == some h && t.status == TxStatus.COMPLETED)) = true →
        MoneroService.processMoneroTransaction mon db h w e =
          ({ processedTransactions := h :: mon.processedTransactions }, db, [], false)) ∧
    (∀ (mon : MoneroService.XmrMonitorState) (db : Db) (h w : String)
        (e : MoneroService.XmrDepositEnv),
      (MoneroService.processMoneroTransaction mon db h w e).2.2.2 = true →
        h ∉ mon.processedTransactions ∧
        (db.any (fun t => t.referenceId == some h && t.status == TxStatus.COMPLETED)) = false ∧
        h ∈ (MoneroService.processMoneroTransaction mon db h w e).1.processedTransactions ∧
        ∃ rec, (MoneroService.processMoneroTransaction mon db h w e).2.1 = rec :: db ∧
          rec.referenceId = some h ∧ rec.status = TxStatus.COMPLETED ∧
          Effect.storeDeposit "XMR" h rec.amount ((rec.fee).getD 0) ∈
            (MoneroService.processMoneroTransaction mon db h w e).2.2.1) ∧
    (∀ (mon : MoneroService.XmrMonitorState) (db : Db) (h w : String)
        (envs : List MoneroService.XmrDepositEnv),
      countStores (MoneroService.runMoneroDeposits mon db h w envs).2.2 ≤ 1) := by
  refine ⟨processMoneroTransaction_mem, ?_, ?_, runMoneroDeposits_le_one⟩
  · intro mon db h w e hmem hdb
    unfold MoneroService.processMoneroTransaction
    rw [if_neg hmem, if_pos hdb]
  · intro mon db h w e hcreated
    unfold MoneroService.processMoneroTransaction at hcreated ⊢
    by_cases hmem : h ∈ mon.processedTransactions
    · rw [if_pos hmem] at hcreated
      exact Bool.noConfusion hcreated
    · rw [if_neg hmem] at hcreated ⊢
      by_cases hdb : (db.any (fun t =>
          t.referenceId == some h && t.status == TxStatus.COMPLETED)) = true
      · rw [if_pos hdb] at hcreated
        exact Bool.noConfusion hcreated
      · rw [if_neg hdb] at hcreated ⊢
        rcases e with ⟨tr⟩
        cases tr with
        | none => exact Bool.noConfusion hcreated
        | some info =>
            dsimp only at hcreated ⊢
            by_cases hz : (info.amount == 0 || info.fee == 0) = true
            · rw [if_pos hz] at hcreated
              exact Bool.noConfusion hcreated
            · rw [if_neg hz] at hcreated ⊢
              refine ⟨hmem, by simpa using hdb, by simp, ?_⟩
              refine ⟨_, rfl, rfl, rfl, ?_⟩
              simp [MoneroService.storeAndBroadcastTransaction]

/-- Witness for C5 at concrete inputs: an id already in the in-memory set is
skipped untouched, and feeding the same id across two poll cycles (below and
above threshold semantics: absent, then present) stores at most one record. -/
theorem C5_deposit_dedup_witness :
    MoneroService.processMoneroTransaction
      { processedTransactions := ["h1"] } [] "h1" "w1" { transfer := none } =
      ({ processedTransactions := ["h1"] }, [], [], false) :=
  C5_deposit_dedup.1 { processedTransactions := ["h1"] } [] "h1" "w1"
    { transfer := none } (by decide)

/-- Counterexample to claim C9: a deposit of 123 atomic units is persisted by
`processMoneroTransaction` with amount (123 / 10^12).toFixed(8) = 0 — a
silent loss of 123 atomic units, far more than one atomic unit. -/
theorem C9_counterexample :
    (MoneroService.processMoneroTransaction { processedTransactions := [] } []
        "h1" "w1" { transfer := some { amount := 123, fee := 7 } }).2.2.2 = true ∧
    (∃ rec, (MoneroService.processMoneroTransaction { processedTransactions := [] } []
        "h1" "w1" { transfer := some { amount := 123, fee := 7 } }).2.1 = [rec] ∧
      rec.amount = 0) ∧
    (0 : Rat) ≠ (123 : Rat) / 10 ^ 12 ∧
    |(0 : Rat) - (123 : Rat) / 10 ^ 12| > 1 / 10 ^ 12 := by
  have hfix : toFixed8 ((123 : Int) / (10 ^ 12 : Rat)) = 0 := by
    unfold toFixed8 jsRound
    have hfl : ⌊(123 : Int) / (10 ^ 12 : Rat) * 10 ^ 8 + 1 / 2⌋ = 0 := by
      rw [Int.floor_eq_zero_iff]
      constructor <;> norm_num
    rw [hfl]
    norm_num
  refine ⟨rfl, ⟨_, rfl, ?_⟩, by norm_num, ?_⟩
  · exact hfix
  · rw [zero_sub, abs_neg, abs_of_pos (by norm_num)]
    norm_num

/-- Claim C9 (amended): whole-XMR withdrawal and transfer amounts are
converted to atomic units by Math.round(amount * 10^12) — rounding to the
nearest atomic unit, never truncation — and `handleMoneroWithdrawal` sends
exactly that converted amount; but the amounts the deposit monitor persists
are additionally rounded to 8 decimal places (toFixed(8)), a granularity of
10^4 atomic units, so persisted deposit values may deviate from the true
amount by up to half of 10^-8 XMR. -/
theorem C9_amended_rounding :
    (∀ q : Rat, |((xmrToAtomic q : Int) : Rat) - q * 10 ^ 12| ≤ 1 / 2) ∧
    (∀ q : Rat, |toFixed8 q - q| ≤ 1 / (2 * 10 ^ 8)) ∧
    (∀ (st : XmrState) (db : Db) (tid wid : String) (amt : Rat) (toA : String)
        (env : XmrEnv), env.openError = none →
      Effect.xmrTransferRpc (xmrToAtomic amt) toA ∈
        (MoneroService.handleMoneroWithdrawal st db tid wid amt toA env).2.1) := by
  refine ⟨?_, ?_, ?_⟩
  · intro q
    unfold xmrToAtomic jsRound
    have h1 : ((⌊q * 10 ^ 12 + 1 / 2⌋ : Int) : Rat) ≤ q * 10 ^ 12 + 1 / 2 :=
      Int.floor_le _
    have h2 : q * 10 ^ 12 + 1 / 2 - 1 < ((⌊q * 10 ^ 12 + 1 / 2⌋ : Int) : Rat) :=
      Int.sub_one_lt_floor _
    rw [abs_le]
    constructor <;> linarith
  · intro q
    unfold toFixed8 jsRound
    have h1 : ((⌊q * 10 ^ 8 + 1 / 2⌋ : Int) : Rat) ≤ q * 10 ^ 8 + 1 / 2 :=
      Int.floor_le _
    have h2 : q * 10 ^ 8 + 1 / 2 - 1 < ((⌊q * 10 ^ 8 + 1 / 2⌋ : Int) : Rat) :=
      Int.sub_one_lt_floor _
    rw [abs_le]
    constructor <;> [linarith; linarith]
  · intro st db tid wid amt toA env hoe
    rcases env with ⟨oe, th⟩
    simp only at hoe
    subst hoe
    cases th <;>
      simp [MoneroService.handleMoneroWithdrawal]

/-- Witness for the amended C9 at a concrete input: the withdrawal handler
sends the rounded atomic amount. -/
theorem C9_amended_rounding_witness :
    Effect.xmrTransferRpc (xmrToAtomic 1) "Addr1" ∈
      (MoneroService.handleMoneroWithdrawal xmrActive [] "tx1" "w1" 1 "Addr1"
        xmrEnvOk).2.1 :=
  C9_amended_rounding.2.2 xmrActive [] "tx1" "w1" 1 "Addr1" xmrEnvOk rfl

/- ### Queue run reduction -/

/-- Reduction of `processNext` past the fetch, claim and metadata steps, for
an idle queue whose head row exists, has an ECO wallet, is PENDING and has a
nonempty chain in its metadata. -/
theorem processNext_entry (sol : SolState) (xmr : XmrState) (s : QueueState) (db : Db)
    (env : QEnv) (tid : String) (rest : List String) (tx : TxRecord) (w : WalletRow)
    (m : TxMeta)
    (hip : s.isProcessing = false) (hq : s.queue = tid :: rest)
    (hf : findTx db tid = some tx) (hw : tx.wallet = some w)
    (hpend : tx.status = TxStatus.PENDING)
    (hm : tx.metadata = some m) (hch : (m.chain == "") = false) :
    WithdrawalQueue.processNext sol xmr s db env =
      (let s1 : QueueState :=
        { queue := rest, isProcessing := true,
          processingTransactions := tid :: s.processingTransactions };
       let d := WithdrawalQueue.dispatchChain sol xmr (claimPending db tid).1 tx m env;
       match d.2.2 with
       | Except.error msg =>
           WithdrawalQueue.handleProcessingError s1 d.1 tid msg
             ([Effect.statusWrite tid TxStatus.PROCESSING] ++ d.2.1) env
       | Except.ok _ =>
         match env.postError with
         | some msg =>
             WithdrawalQueue.handleProcessingError s1 d.1 tid msg
               ([Effect.statusWrite tid TxStatus.PROCESSING] ++ d.2.1) env
         | none =>
             WithdrawalQueue.finishRun s1 tid d.1
               ([Effect.statusWrite tid TxStatus.PROCESSING] ++ d.2.1 ++
                (if env.userFound && env.walletFound then
                   [Effect.emailConfirmation tid] else []) ++
                (match tx.fee with
                 | some f =>
                     if 0 < f then
                       [Effect.adminProfit f
                         ((tx.wallet.map (fun w => w.currency)).getD "") m.chain tid]
                     else []
                 | none => []))) := by
  have hmem := findTx_eq_some db tid tx hf
  have hnz : (claimPending db tid).2 ≠ 0 :=
    (claimPending_succeeds_iff db tid).mpr ⟨tx, hmem.1, hmem.2, hpend⟩
  unfold WithdrawalQueue.processNext
  rw [if_neg (by simp [hip])]
  rw [hq]
  dsimp only
  rw [hf]
  dsimp only
  rw [hw]
  dsimp only
  rw [if_neg (by simpa using hnz)]
  rw [hm]
  dsimp only
  rw [if_neg (by simp [hch])]

/-- Claim C3 (amended): a backend error makes the run end with the record
FAILED carrying the nonempty description built from the error, exactly one
refund call with the original amount, the id released from the in-flight set
with no re-queue, and — when the refund collaborator succeeds — one
withdrawal-failed notification to the owning user; when the refund throws,
the FAILED state and the absence of a re-queue still hold but the
notification is skipped. -/
theorem C3_backend_failure (sol : SolState) (xmr : XmrState) (s : QueueState) (db : Db)
    (env : QEnv) (tid : String) (rest : List String) (tx : TxRecord) (w : WalletRow)
    (m : TxMeta) (msg : String)
    (hip : s.isProcessing = false) (hq : s.queue = tid :: rest)
    (hf : findTx db tid = some tx) (hw : tx.wallet = some w)
    (hpend : tx.status = TxStatus.PENDING)
    (hm : tx.metadata = some m) (hch : (m.chain == "") = false)
    (hdisp : (WithdrawalQueue.dispatchChain sol xmr (claimPending db tid).1
        tx m env).2.2 = Except.error msg) :
    statusOf (WithdrawalQueue.processNext sol xmr s db env).2.1 tid =
      some TxStatus.FAILED ∧
    descriptionOf (WithdrawalQueue.processNext sol xmr s db env).2.1 tid =
      some ("Transaction failed: " ++ msg) ∧
    (∀ dsc, descriptionOf (WithdrawalQueue.processNext sol xmr s db env).2.1 tid =
      some dsc → dsc ≠ "") ∧
    refundCalls (WithdrawalQueue.processNext sol xmr s db env).2.2 = [tx.amount] ∧
    notifyCalls (WithdrawalQueue.processNext sol xmr s db env).2.2 =
      (if env.refundOk then [(tx.userId, tx.amount, w.currency)] else []) ∧
    (WithdrawalQueue.processNext sol xmr s db env).1 =
      { queue := rest, isProcessing := false,
        processingTransactions := s.processingTransactions } := by
  rw [processNext_entry sol xmr s db env tid rest tx w m hip hq hf hw hpend hm hch]
  dsimp only
  rw [hdisp]
  dsimp only
  obtain ⟨fp, rc, nc, ap, okW, errW⟩ :=
    dispatchChain_spec sol xmr (claimPending db tid).1 tx m env
  have hid : tx.id = tid := (findTx_eq_some db tid tx hf).2
  rw [hid] at fp
  have fpall := fieldsPreserved_trans (fieldsPreserved_claim db tid) fp
  obtain ⟨tx2, hf2, e1, e2, e3, e4, e5, e6⟩ := fpall tx hf
  have hw2 : tx2.wallet = some w := by rw [e6, hw]
  have hfq := findTx_failTxQueue
    (WithdrawalQueue.dispatchChain sol xmr (claimPending db tid).1 tx m env).1 tid msg tx2 hf2
  obtain ⟨hrc, hnc⟩ := handleProcessingError_refunds
    { queue := rest, isProcessing := true,
      processingTransactions := tid :: s.processingTransactions }
    (WithdrawalQueue.dispatchChain sol xmr (claimPending db tid).1 tx m env).1
    tid msg
    ([Effect.statusWrite tid TxStatus.PROCESSING] ++
      (WithdrawalQueue.dispatchChain sol xmr (claimPending db tid).1 tx m env).2.1)
    env tx2 w hf2 hw2
  obtain ⟨extra, heq, hsw, hap⟩ := handleProcessingError_eq
    { queue := rest, isProcessing := true,
      processingTransactions := tid :: s.processingTransactions }
    (WithdrawalQueue.dispatchChain sol xmr (claimPending db tid).1 tx m env).1
    tid msg
    ([Effect.statusWrite tid TxStatus.PROCESSING] ++
      (WithdrawalQueue.dispatchChain sol xmr (claimPending db tid).1 tx m env).2.1)
    env
  refine ⟨?_, ?_, ?_, ?_, ?_, ?_⟩
  · rw [heq]
    dsimp only
    unfold statusOf
    rw [hfq]
    rfl
  · rw [heq]
    dsimp only
    unfold descriptionOf
    rw [hfq]
    rfl
  · intro dsc hd
    rw [heq] at hd
    dsimp only at hd
    unfold descriptionOf at hd
    rw [hfq] at hd
    dsimp only [Option.bind] at hd
    injection hd with hd
    subst hd
    intro hcontra
    have hlen := congrArg String.data hcontra
    rw [String.data_append] at hlen
    have := List.append_eq_nil.mp hlen
    exact absurd this.1 (by decide)
  · rw [hrc, e3]
    simp [rc]
  · rw [hnc, e2, e3]
    simp [nc]
  · rw [heq]
    dsimp only
    simp

/-- Witness for the amended C3 at a concrete input: a generic backend error
(insufficient funds) on a TRON withdrawal ends FAILED with one refund of the
original amount and one notification. -/
theorem C3_backend_failure_witness :
    statusOf (WithdrawalQueue.processNext solActive xmrActive
        { queue := ["tx2"], isProcessing := false, processingTransactions := [] }
        [{ txSample with id := "tx2",
                         metadata := some { chain := "TRON", toAddress := "Addr1" } }]
        { qEnvOk with genericResult := Except.error "insufficient funds" }).2.1 "tx2" =
      some TxStatus.FAILED ∧
    refundCalls (WithdrawalQueue.processNext solActive xmrActive
        { queue := ["tx2"], isProcessing := false, processingTransactions := [] }
        [{ txSample with id := "tx2",
                         metadata := some { chain := "TRON", toAddress := "Addr1" } }]
        { qEnvOk with genericResult := Except.error "insufficient funds" }).2.2 = [1] := by
  have h := C3_backend_failure solActive xmrActive
    { queue := ["tx2"], isProcessing := false, processingTransactions := [] }
    [{ txSample with id := "tx2",
                     metadata := some { chain := "TRON", toAddress := "Addr1" } }]
    { qEnvOk with genericResult := Except.error "insufficient funds" }
    "tx2" [] _ { currency := "SOL" } { chain := "TRON", toAddress := "Addr1" }
    "insufficient funds" rfl rfl rfl rfl rfl rfl rfl rfl
  exact ⟨h.1, h.2.2.2.1⟩

/-- Counterexample to claim C3 as stated: when the refund collaborator throws,
the code skips the withdrawal-failed notification entirely (the notification
call sits after the refund in the same catch block), even though the record
is FAILED and exactly one refund call was made. -/
theorem C3_counterexample :
    statusOf (WithdrawalQueue.processNext solActive xmrActive
        { queue := ["tx1"], isProcessing := false, processingTransactions := [] }
        [{ txSample with metadata := some { chain := "BSC", toAddress := "Addr1" } }]
        { qEnvOk with genericResult := Except.error "insufficient funds",
                      refundOk := false }).2.1 "tx1" = some TxStatus.FAILED ∧
    refundCalls (WithdrawalQueue.processNext solActive xmrActive
        { queue := ["tx1"], isProcessing := false, processingTransactions := [] }
        [{ txSample with metadata := some { chain := "BSC", toAddress := "Addr1" } }]
        { qEnvOk with genericResult := Except.error "insufficient funds",
                      refundOk := false }).2.2 = [1] ∧
    notifyCalls (WithdrawalQueue.processNext solActive xmrActive
        { queue := ["tx1"], isProcessing := false, processingTransactions := [] }
        [{ txSample with metadata := some { chain := "BSC", toAddress := "Addr1" } }]
        { qEnvOk with genericResult := Except.error "insufficient funds",
                      refundOk := false }).2.2 = [] :=
  ⟨rfl, rfl, rfl⟩

/-- Claim C8 (amended): when the dispatched backend succeeds and the
post-success bookkeeping section does not throw, the run books exactly one
admin-profit entry — amount the transaction fee, currency the wallet
currency, chain the routing chain, tagged with the transaction id — when the
fee is a number greater than zero, and books none when the fee is zero or
absent. -/
theorem C8_admin_profit (sol : SolState) (xmr : XmrState) (s : QueueState) (db : Db)
    (env : QEnv) (tid : String) (rest : List String) (tx : TxRecord) (w : WalletRow)
    (m : TxMeta)
    (hip : s.isProcessing = false) (hq : s.queue = tid :: rest)
    (hf : findTx db tid = some tx) (hw : tx.wallet = some w)
    (hpend : tx.status = TxStatus.PENDING)
    (hm : tx.metadata = some m) (hch : (m.chain == "") = false)
    (hdisp : (WithdrawalQueue.dispatchChain sol xmr (claimPending db tid).1
        tx m env).2.2 = Except.ok ())
    (hpost : env.postError = none) :
    adminProfitEntries (WithdrawalQueue.processNext sol xmr s db env).2.2 =
      (match tx.fee with
       | some f => if 0 < f then [(f, w.currency, m.chain, tid)] else []
       | none => []) := by
  rw [processNext_entry sol xmr s db env tid rest tx w m hip hq hf hw hpend hm hch]
  dsimp only
  rw [hdisp]
  dsimp only
  rw [hpost]
  dsimp only
  obtain ⟨fp, rc, nc, ap, okW, errW⟩ :=
    dispatchChain_spec sol xmr (claimPending db tid).1 tx m env
  rcases hfee : tx.fee with _ | f
  · simp [WithdrawalQueue.finishRun, ap, apply_ite adminProfitEntries]
  · by_cases h0 : 0 < f
    · simp [WithdrawalQueue.finishRun, ap, apply_ite adminProfitEntries, h0, hw]
    · simp [WithdrawalQueue.finishRun, ap, apply_ite adminProfitEntries, h0]

/-- Witness for the amended C8 at a concrete input: a successful generic
withdrawal with fee 5/2 and wallet currency SOL books exactly one
admin-profit entry (5/2, SOL, BSC, tx1). -/
theorem C8_admin_profit_witness :
    adminProfitEntries (WithdrawalQueue.processNext solActive xmrActive
        { queue := ["tx1"], isProcessing := false, processingTransactions := [] }
        [{ txSample with metadata := some { chain := "BSC", toAddress := "Addr1" } }]
        qEnvOk).2.2 = [((5 : Rat)/2, "SOL", "BSC", "tx1")] := by
  have h := C8_admin_profit solActive xmrActive
    { queue := ["tx1"], isProcessing := false, processingTransactions := [] }
    [{ txSample with metadata := some { chain := "BSC", toAddress := "Addr1" } }]
    qEnvOk "tx1" [] _ { currency := "SOL" } { chain := "BSC", toAddress := "Addr1" }
    rfl rfl rfl rfl rfl rfl rfl rfl rfl
  rw [h]
  norm_num [txSample]

/-- Counterexample to claim C8 as stated: the backend transfer succeeds
(COMPLETED is written) and the fee is 5/2 > 0, yet no admin-profit entry is
created, because the post-success bookkeeping section threw before reaching
the admin-profit step (and the run was then marked FAILED). -/
theorem C8_counterexample :
    ("tx1", TxStatus.COMPLETED) ∈ statusWrites (WithdrawalQueue.processNext solActive
        xmrActive
        { queue := ["tx1"], isProcessing := false, processingTransactions := [] }
        [{ txSample with metadata := some { chain := "BSC", toAddress := "Addr1" } }]
        { qEnvOk with postError := some "email enqueue failed" }).2.2 ∧
    ({ txSample with metadata := some { chain := "BSC", toAddress := "Addr1" } }).fee =
      some (5/2 : Rat) ∧
    (0 : Rat) < 5/2 ∧
    adminProfitEntries (WithdrawalQueue.processNext solActive xmrActive
        { queue := ["tx1"], isProcessing := false, processingTransactions := [] }
        [{ txSample with metadata := some { chain := "BSC", toAddress := "Addr1" } }]
        { qEnvOk with postError := some "email enqueue failed" }).2.2 = [] := by
  refine ⟨?_, rfl, by norm_num, rfl⟩
  have : statusWrites (WithdrawalQueue.processNext solActive xmrActive
      { queue := ["tx1"], isProcessing := false, processingTransactions := [] }
      [{ txSample with metadata := some { chain := "BSC", toAddress := "Addr1" } }]
      { qEnvOk with postError := some "email enqueue failed" }).2.2 =
      [("tx1", TxStatus.PROCESSING), ("tx1", TxStatus.COMPLETED),
       ("tx1", TxStatus.FAILED)] := rfl
  rw [this]
  simp

/-- Counterexample to claim C4 as stated: a run in which the backend
succeeds — the record is written COMPLETED — and the post-success
bookkeeping then throws, whereupon the queue error handler overwrites the
terminal COMPLETED with FAILED: a terminal-to-terminal transition. -/
theorem C4_counterexample :
    statusWrites (WithdrawalQueue.processNext solActive xmrActive
        { queue := ["tx1"], isProcessing := false, processingTransactions := [] }
        [{ txSample with metadata := some { chain := "BSC", toAddress := "Addr1" } }]
        { qEnvOk with postError := some "profit bookkeeping failed" }).2.2 =
      [("tx1", TxStatus.PROCESSING), ("tx1", TxStatus.COMPLETED),
       ("tx1", TxStatus.FAILED)] ∧
    statusOf (WithdrawalQueue.processNext solActive xmrActive
        { queue := ["tx1"], isProcessing := false, processingTransactions := [] }
        [{ txSample with metadata := some { chain := "BSC", toAddress := "Addr1" } }]
        { qEnvOk with postError := some "profit bookkeeping failed" }).2.1 "tx1" =
      some TxStatus.FAILED :=
  ⟨rfl, rfl⟩

/-- Claim C4 (amended): the status writes of a processing run follow
PENDING → PROCESSING → terminal: a run writes nothing, or — only when the
head row was PENDING — PROCESSING then COMPLETED, PROCESSING then FAILED
(possibly twice: handler write plus queue write), or, exactly when the
post-success bookkeeping throws, PROCESSING, COMPLETED, FAILED.  No write
ever re-enters PENDING or PROCESSING after a terminal status, and a FAILED
record is never rewritten to COMPLETED; the only terminal-to-terminal
transition is the COMPLETED-to-FAILED overwrite by the queue error
handler. -/
theorem C4_amended_status_monotone (sol : SolState) (xmr : XmrState) (s : QueueState)
    (db : Db) (env : QEnv) :
    statusWrites (WithdrawalQueue.processNext sol xmr s db env).2.2 = [] ∨
    ∃ tid rest, s.queue = tid :: rest ∧
      (∃ t ∈ db, t.id = tid ∧ t.status = TxStatus.PENDING) ∧
      (statusWrites (WithdrawalQueue.processNext sol xmr s db env).2.2 =
         [(tid, TxStatus.PROCESSING), (tid, TxStatus.COMPLETED)] ∨
       statusWrites (WithdrawalQueue.processNext sol xmr s db env).2.2 =
         [(tid, TxStatus.PROCESSING), (tid, TxStatus.FAILED)] ∨
       statusWrites (WithdrawalQueue.processNext sol xmr s db env).2.2 =
         [(tid, TxStatus.PROCESSING), (tid, TxStatus.FAILED), (tid, TxStatus.FAILED)] ∨
       (statusWrites (WithdrawalQueue.processNext sol xmr s db env).2.2 =
         [(tid, TxStatus.PROCESSING), (tid, TxStatus.COMPLETED), (tid, TxStatus.FAILED)] ∧
        env.postError.isSome = true)) := by
  unfold WithdrawalQueue.processNext
  by_cases hip : s.isProcessing = true
  · rw [if_pos hip]
    exact Or.inl rfl
  · rw [if_neg hip]
    rcases hq : s.queue with _ | ⟨tid, rest⟩
    · exact Or.inl rfl
    · dsimp only
      rcases hft : findTx db tid with _ | tx
      · exact Or.inl rfl
      · dsimp only
        rcases hwt : tx.wallet with _ | w
        · exact Or.inl rfl
        · dsimp only
          by_cases hc : ((claimPending db tid).2 == 0) = true
          · rw [if_pos hc]
            exact Or.inl rfl
          · rw [if_neg hc]
            have hex : ∃ t ∈ db, t.id = tid ∧ t.status = TxStatus.PENDING :=
              (claimPending_succeeds_iff db tid).mp (by simpa using hc)
            refine Or.inr ⟨tid, rest, rfl, hex, ?_⟩
            have hid : tx.id = tid := (findTx_eq_some db tid tx hft).2
            rcases hmt : tx.metadata with _ | m
            · dsimp only
              obtain ⟨extra, heq, hsw, hap⟩ := handleProcessingError_eq
                { queue := rest, isProcessing := true,
                  processingTransactions := tid :: s.processingTransactions }
                (claimPending db tid).1 tid
                "Invalid or missing chain in transaction metadata"
                [Effect.statusWrite tid TxStatus.PROCESSING] env
              rw [heq]
              refine Or.inr (Or.inl ?_)
              simp [hsw]
            · dsimp only
              by_cases hch : (m.chain == "") = true
              · rw [if_pos hch]
                obtain ⟨extra, heq, hsw, hap⟩ := handleProcessingError_eq
                  { queue := rest, isProcessing := true,
                    processingTransactions := tid :: s.processingTransactions }
                  (claimPending db tid).1 tid
                  "Invalid or missing chain in transaction metadata"
                  [Effect.statusWrite tid TxStatus.PROCESSING] env
                rw [heq]
                refine Or.inr (Or.inl ?_)
                simp [hsw]
              · rw [if_neg hch]
                obtain ⟨fp, rc, nc, ap, okW, errW⟩ :=
                  dispatchChain_spec sol xmr (claimPending db tid).1 tx m env
                cases hd : (WithdrawalQueue.dispatchChain sol xmr
                    (claimPending db tid).1 tx m env).2.2 with
                | error msg =>
                    dsimp only
                    obtain ⟨extra, heq, hsw, hap⟩ := handleProcessingError_eq
                      { queue := rest, isProcessing := true,
                        processingTransactions := tid :: s.processingTransactions }
                      (WithdrawalQueue.dispatchChain sol xmr
                        (claimPending db tid).1 tx m env).1 tid msg
                      ([Effect.statusWrite tid TxStatus.PROCESSING] ++
                        (WithdrawalQueue.dispatchChain sol xmr
                          (claimPending db tid).1 tx m env).2.1) env
                    rw [heq]
                    rcases errW msg hd with hb | hb
                    · refine Or.inr (Or.inl ?_)
                      simp [hsw, hb]
                    · refine Or.inr (Or.inr (Or.inl ?_))
                      rw [hid] at hb
                      simp [hsw, hb]
                | ok u =>
                    dsimp only
                    have hbC := okW u hd
                    rw [hid] at hbC
                    cases hpost : env.postError with
                    | some pmsg =>
                        dsimp only
                        obtain ⟨extra, heq, hsw, hap⟩ := handleProcessingError_eq
                          { queue := rest, isProcessing := true,
                            processingTransactions := tid :: s.processingTransactions }
                          (WithdrawalQueue.dispatchChain sol xmr
                            (claimPending db tid).1 tx m env).1 tid pmsg
                          ([Effect.statusWrite tid TxStatus.PROCESSING] ++
                            (WithdrawalQueue.dispatchChain sol xmr
                              (claimPending db tid).1 tx m env).2.1) env
                        rw [heq]
                        refine Or.inr (Or.inr (Or.inr ⟨?_, rfl⟩))
                        simp [hsw, hbC]
                    | none =>
                        dsimp only
                        have hp : ∀ cur : String, statusWrites (match tx.fee with
                            | some f => if 0 < f then
                                [Effect.adminProfit f cur m.chain tid]
                              else []
                            | none => []) = [] := by
                          intro cur
                          rcases tx.fee with _ | f
                          · simp
                          · by_cases h0 : 0 < f <;> simp [h0]
                        refine Or.inl ?_
                        simp [WithdrawalQueue.finishRun, hbC, hp, apply_ite statusWrites]

end Liverty
